import Mathlib

/-!
Verification of the arithmetic core of `sonic-js` (`src/math/swap.ts` and
`src/math/liquidity.ts`).

The source computes with `bignumber.js` values.  We model a BigNumber value
as either a finite exact rational, positive or negative infinity, or NaN
(`bignumber.js` mirrors the IEEE-754 special values: division of a non-zero
finite value by zero yields a signed infinity, `0/0` yields NaN, and NaN
propagates through every arithmetic operation while every comparison with
NaN is false).  Finite addition, subtraction and multiplication are exact in
`bignumber.js`; division and square root are computed to the configured
number of decimal places.  Following the spec's data model ("arbitrary
precision, base-10, exact decimal value") we model finite division exactly;
square root, which cannot be exact, is modelled rounded to the library's
default 20 decimal places with its default ROUND_HALF_UP rounding mode
(round to nearest, ties away from zero), the same mode used by `.dp(0)`.
-/

/-- Round a rational to an integer the way `bignumber.js` `.dp(0)` does with
its default rounding mode `ROUND_HALF_UP`: to the nearest integer, ties away
from zero. -/
def dpHalfUp (x : ℚ) : ℚ :=
  if 0 ≤ x then (⌊x + 1/2⌋ : ℤ) else -((⌊-x + 1/2⌋ : ℤ) : ℚ)

/-- Fuel-driven integer square root (largest `r` with `r * r ≤ n`), used to
model the decimal square root of `bignumber.js`.  The fuel is the argument
itself, which is at least the recursion depth. -/
def isqrtAux : ℕ → ℕ → ℕ
  | 0, _ => 0
  | fuel + 1, n =>
    if n < 2 then n
    else
      let r := 2 * isqrtAux fuel (n / 4)
      if (r + 1) * (r + 1) ≤ n then r + 1 else r

/-- Integer square root: `isqrt n = ⌊Real.sqrt n⌋` computed by the classical
divide-by-four recursion. -/
def isqrt (n : ℕ) : ℕ := isqrtAux n n

/-- Square root of a non-negative rational rounded to 20 decimal places with
ROUND_HALF_UP, the default `DECIMAL_PLACES` and `ROUNDING_MODE` that
`bignumber.js` applies to `.sqrt()`. -/
def sqrt20 (x : ℚ) : ℚ :=
  if x < 0 then 0
  else
    let t := isqrt (4 * x.num.toNat * 10 ^ 40 * x.den) / x.den
    (((t + 1) / 2 : ℕ) : ℚ) / 10 ^ 20

/-- A `bignumber.js` value: a finite exact rational, a signed infinity, or
NaN. -/
inductive BN where
  | num : ℚ → BN
  | posInf : BN
  | negInf : BN
  | nan : BN
deriving DecidableEq

namespace BN

/-- `x.isZero()` of `bignumber.js`: true exactly on the finite value 0. -/
def isZero : BN → Bool
  | num q => decide (q = 0)
  | _ => false

/-- `x.isNaN()` of `bignumber.js`. -/
def isNaN : BN → Bool
  | nan => true
  | _ => false

/-- `x.negated()` of `bignumber.js`. -/
def neg : BN → BN
  | num q => num (-q)
  | posInf => negInf
  | negInf => posInf
  | nan => nan

/-- `x.plus(y)` of `bignumber.js` (exact on finite values; the two opposite
infinities add to NaN). -/
def add : BN → BN → BN
  | nan, _ => nan
  | _, nan => nan
  | num a, num b => num (a + b)
  | num _, posInf => posInf
  | num _, negInf => negInf
  | posInf, num _ => posInf
  | negInf, num _ => negInf
  | posInf, posInf => posInf
  | negInf, negInf => negInf
  | posInf, negInf => nan
  | negInf, posInf => nan

/-- `x.minus(y)` of `bignumber.js`, which agrees with `x.plus(y.negated())`
in every case. -/
def sub (x y : BN) : BN := add x (neg y)

/-- `x.multipliedBy(y)` (also `x.times(y)`) of `bignumber.js` (exact on
finite values; zero times an infinity is NaN). -/
def mul : BN → BN → BN
  | nan, _ => nan
  | _, nan => nan
  | num a, num b => num (a * b)
  | num a, posInf => if a = 0 then nan else if 0 < a then posInf else negInf
  | num a, negInf => if a = 0 then nan else if 0 < a then negInf else posInf
  | posInf, num b => if b = 0 then nan else if 0 < b then posInf else negInf
  | negInf, num b => if b = 0 then nan else if 0 < b then negInf else posInf
  | posInf, posInf => posInf
  | negInf, negInf => posInf
  | posInf, negInf => negInf
  | negInf, posInf => negInf

/-- `x.dividedBy(y)` (also `x.div(y)`) of `bignumber.js`: exact rational
division on finite values (see the header comment), a signed infinity when a
non-zero finite value is divided by zero, NaN for `0/0` and for the ratio of
two infinities, zero when a finite value is divided by an infinity. -/
def div : BN → BN → BN
  | nan, _ => nan
  | _, nan => nan
  | num a, num b =>
    if b = 0 then (if a = 0 then nan else if 0 < a then posInf else negInf)
    else num (a / b)
  | num _, posInf => num 0
  | num _, negInf => num 0
  | posInf, num b => if 0 ≤ b then posInf else negInf
  | negInf, num b => if 0 ≤ b then negInf else posInf
  | posInf, posInf => nan
  | posInf, negInf => nan
  | negInf, posInf => nan
  | negInf, negInf => nan

/-- `x.isGreaterThanOrEqualTo(y)` of `bignumber.js`: any comparison with NaN
is false. -/
def ge : BN → BN → Bool
  | nan, _ => false
  | _, nan => false
  | num a, num b => decide (b ≤ a)
  | num _, posInf => false
  | num _, negInf => true
  | posInf, _ => true
  | negInf, negInf => true
  | negInf, _ => false

/-- `BigNumber.min(x, y)`: NaN if either argument is NaN, otherwise the
smaller value. -/
def min : BN → BN → BN
  | nan, _ => nan
  | _, nan => nan
  | num a, num b => num (Min.min a b)
  | num a, posInf => num a
  | posInf, num b => num b
  | negInf, _ => negInf
  | num _, negInf => negInf
  | posInf, negInf => negInf
  | posInf, posInf => posInf

/-- `x.dp(0)` of `bignumber.js` with the default rounding mode
ROUND_HALF_UP; infinities and NaN are unchanged. -/
def dp0 : BN → BN
  | num q => num (dpHalfUp q)
  | x => x

/-- `x.dp(0, BigNumber.ROUND_FLOOR)` of `bignumber.js`; infinities and NaN
are unchanged. -/
def dpFloor0 : BN → BN
  | num q => num ((⌊q⌋ : ℤ) : ℚ)
  | x => x

/-- `x.sqrt()` of `bignumber.js`: NaN on negative values, rounded to 20
decimal places otherwise (see `sqrt20`). -/
def sqrt : BN → BN
  | num q => if q < 0 then nan else num (sqrt20 q)
  | posInf => posInf
  | negInf => nan
  | nan => nan

/-- The rational carried by a finite value (0 for infinities and NaN); used
to state order-theoretic properties of finite results. -/
def toQ : BN → ℚ
  | num q => q
  | _ => 0

end BN

/-- Modelled from the spec: `exponential(n) = 10^n`, the decimal-scaling
helper of the repository's utils (declared outside `src/`). -/
def exponential (n : ℕ) : BN := BN.num (10 ^ n)

/-- Modelled from the spec: `removeDecimals(amount, decimals) =
amount / 10^decimals`, exact division by a power of ten (utils function
declared outside `src/`). -/
def removeDecimals (amount : ℚ) (decimals : ℕ) : BN :=
  BN.div (BN.num amount) (exponential decimals)

/-- Modelled from the spec: `applyDecimals(amount, decimals) =
round(amount * 10^decimals)`, with the decimal library's default rounding
(nearest, ties away from zero) producing an integer raw amount (utils
function declared outside `src/`). -/
def applyDecimals (amount : BN) (decimals : ℕ) : BN :=
  BN.dp0 (BN.mul amount (BN.num (10 ^ decimals)))

namespace Price

/-- Modelled from the spec: `Price.getByAmount({amount, price})` is the
valuation `valueOf(amount, price) = amount * price` (declared outside
`src/`). -/
def getByAmount (amount price : BN) : BN := BN.mul amount price

end Price

namespace Swap

/-- `Swap.DEFAULT_FEE = 0.003` (`src/math/swap.ts` line 9). -/
def DEFAULT_FEE : ℚ := 3 / 1000

/-- JavaScript `params.fee || DEFAULT_FEE` (`src/math/swap.ts` line 18): a
missing fee, and also an explicit numeric fee of 0 (falsy in JavaScript),
fall back to the default fee. -/
def feeOrDefault : Option ℚ → ℚ
  | none => DEFAULT_FEE
  | some f => if f = 0 then DEFAULT_FEE else f

/-- `Swap.getAmountOut` (`src/math/swap.ts` lines 14-28). -/
def getAmountOut (amountIn : ℚ) (decimalsIn decimalsOut : ℕ)
    (reserveIn reserveOut : ℚ) (fee : Option ℚ) : BN :=
  let amountIn' := removeDecimals amountIn decimalsIn
  let reserveIn' := BN.num reserveIn
  let reserveOut' := BN.num reserveOut
  let fee' := BN.num (feeOrDefault fee)
  if amountIn'.isZero then BN.num 0
  else
    let amountInWithFee := BN.mul amountIn' (BN.sub (BN.num 1) fee')
    let numerator := BN.mul amountInWithFee reserveOut'
    let denominator := BN.add reserveIn' amountInWithFee
    applyDecimals (BN.div numerator denominator) decimalsOut

/-- `Swap.getPriceImpact` (`src/math/swap.ts` lines 33-65). -/
def getPriceImpact (amountIn amountOut priceIn priceOut : BN) : BN :=
  if amountIn.isZero || amountIn.isNaN || amountOut.isZero || amountOut.isNaN
      || priceIn.isZero || priceIn.isNaN || priceOut.isZero || priceOut.isNaN
  then BN.num 0
  else
    let amountOut' := Price.getByAmount amountOut priceOut
    let amountIn' := Price.getByAmount amountIn priceIn
    BN.neg (BN.mul (BN.sub (BN.num 1) (BN.div amountOut' amountIn')) (BN.num 100))

end Swap

namespace Liquidity

/-- `Liquidity.MINIMUM_LIQUIDITY = exponential(3)` (`src/math/liquidity.ts`
line 9). -/
def MINIMUM_LIQUIDITY : BN := exponential 3

/-- `Liquidity.getPairDecimals` (`src/math/liquidity.ts` lines 14-23). -/
def getPairDecimals (token0Decimals token1Decimals : ℕ) : BN :=
  BN.dpFloor0
    (BN.div (BN.add (BN.num token0Decimals) (BN.num token1Decimals)) (BN.num 2))

/-- Parameters of `Liquidity.getAddPosition` and
`Liquidity.getAddPercentage` (`src/math/liquidity.ts` lines 119-129).
Amounts, reserves and total supply are finite numeric inputs. -/
structure AddParams where
  token0Amount : ℚ
  token1Amount : ℚ
  token0Decimals : ℕ
  token1Decimals : ℕ
  reserve0 : ℚ
  reserve1 : ℚ
  totalSupply : ℚ

/-- The credited-amount computation of `Liquidity.getAddPosition`
(`src/math/liquidity.ts` lines 44-61), factored out so its branch structure
can be stated on its own. -/
def addAmounts (amount0Desired amount1Desired reserve0 reserve1 : BN) :
    BN × BN :=
  if reserve0.isZero && reserve1.isZero then (amount0Desired, amount1Desired)
  else
    let amount1Optimal := BN.div (BN.mul amount0Desired reserve1) reserve0
    if amount1Desired.ge amount1Optimal then (amount0Desired, amount1Optimal)
    else
      let amount0Optimal := BN.div (BN.mul amount1Desired reserve0) reserve1
      (amount0Optimal, amount1Desired)

/-- `Liquidity.getAddPosition` (`src/math/liquidity.ts` lines 28-75). -/
def getAddPosition (p : AddParams) : BN :=
  let amount0Desired := removeDecimals p.token0Amount p.token0Decimals
  let amount1Desired := removeDecimals p.token1Amount p.token1Decimals
  let reserve0 := BN.num p.reserve0
  let reserve1 := BN.num p.reserve1
  let totalSupply := BN.num p.totalSupply
  let amounts := addAmounts amount0Desired amount1Desired reserve0 reserve1
  let amount0 := amounts.1
  let amount1 := amounts.2
  let lp :=
    if totalSupply.isZero then
      BN.sub (BN.sqrt (BN.mul amount0 amount1)) MINIMUM_LIQUIDITY
    else
      let one := BN.div (BN.mul amount0 totalSupply) reserve0
      let two := BN.div (BN.mul amount1 totalSupply) reserve1
      BN.min one two
  BN.dp0 lp

/-- `Liquidity.getAddPercentage` (`src/math/liquidity.ts` lines 80-91). -/
def getAddPercentage (p : AddParams) : BN :=
  let totalSupply := BN.num p.totalSupply
  if totalSupply.isZero then BN.num 1
  else
    let lp := getAddPosition p
    BN.div lp (BN.add lp totalSupply)

/-- `Liquidity.getTokenBalances` (`src/math/liquidity.ts` lines 96-115);
the pair model supplies `reserve0`, `reserve1` and `totalSupply`. -/
def getTokenBalances (reserve0 reserve1 totalSupply lpBalance : ℚ) :
    BN × BN :=
  let balancePercentage := BN.div (BN.num lpBalance) (BN.num totalSupply)
  let token0Balance := BN.dp0 (BN.mul (BN.num reserve0) balancePercentage)
  let token1Balance := BN.dp0 (BN.mul (BN.num reserve1) balancePercentage)
  (token0Balance, token1Balance)

/-- Sum of the token0 balances that `getTokenBalances` reports for a list of
LP balances against one fixed pair state. -/
def sumToken0 (reserve0 reserve1 totalSupply : ℚ) (lps : List ℚ) : ℚ :=
  (lps.map fun lp => (getTokenBalances reserve0 reserve1 totalSupply lp).1.toQ).sum

end Liquidity

/-! ### Reduction lemmas for operations on finite values -/

theorem BN.isZero_num (q : ℚ) : (BN.num q).isZero = decide (q = 0) := rfl

theorem BN.neg_num (q : ℚ) : (BN.num q).neg = BN.num (-q) := rfl

theorem BN.add_num (a b : ℚ) : BN.add (BN.num a) (BN.num b) = BN.num (a + b) := rfl

theorem BN.sub_num (a b : ℚ) : BN.sub (BN.num a) (BN.num b) = BN.num (a - b) := by
  show BN.num (a + -b) = BN.num (a - b)
  rw [← sub_eq_add_neg]

theorem BN.mul_num (a b : ℚ) : BN.mul (BN.num a) (BN.num b) = BN.num (a * b) := rfl

theorem BN.div_num (a b : ℚ) (h : b ≠ 0) :
    BN.div (BN.num a) (BN.num b) = BN.num (a / b) := by
  simp [BN.div, h]

theorem BN.ge_num (a b : ℚ) : BN.ge (BN.num a) (BN.num b) = decide (b ≤ a) := rfl

theorem BN.min_num (a b : ℚ) : BN.min (BN.num a) (BN.num b) = BN.num (Min.min a b) := rfl

theorem BN.dp0_num (q : ℚ) : BN.dp0 (BN.num q) = BN.num (dpHalfUp q) := rfl

theorem BN.toQ_num (q : ℚ) : (BN.num q).toQ = q := rfl

/-! ### Facts about half-up rounding -/

theorem dpHalfUp_le (x : ℚ) : dpHalfUp x ≤ x + 1/2 := by
  unfold dpHalfUp
  split_ifs with h
  · exact Int.floor_le (x + 1/2)
  · have h1 : (-x + 1/2 : ℚ) < ⌊(-x + 1/2 : ℚ)⌋ + 1 := Int.lt_floor_add_one _
    linarith

theorem dpHalfUp_nonneg {x : ℚ} (h : 0 ≤ x) : 0 ≤ dpHalfUp x := by
  rw [dpHalfUp, if_pos h]
  have : (0 : ℤ) ≤ ⌊(x + 1/2 : ℚ)⌋ := Int.floor_nonneg.mpr (by linarith)
  exact_mod_cast this

theorem dpHalfUp_mono {x y : ℚ} (h : x ≤ y) : dpHalfUp x ≤ dpHalfUp y := by
  unfold dpHalfUp
  split_ifs with hx hy hy
  · exact_mod_cast Int.floor_le_floor (by linarith)
  · linarith
  · have h1 : (0 : ℤ) ≤ ⌊(-x + 1/2 : ℚ)⌋ := Int.floor_nonneg.mpr (by linarith)
    have h2 : (0 : ℤ) ≤ ⌊(y + 1/2 : ℚ)⌋ := Int.floor_nonneg.mpr (by linarith)
    have h1q : (0 : ℚ) ≤ (⌊(-x + 1/2 : ℚ)⌋ : ℚ) := by exact_mod_cast h1
    have h2q : (0 : ℚ) ≤ (⌊(y + 1/2 : ℚ)⌋ : ℚ) := by exact_mod_cast h2
    linarith
  · have : ⌊(-y + 1/2 : ℚ)⌋ ≤ ⌊(-x + 1/2 : ℚ)⌋ := Int.floor_le_floor (by linarith)
    have hq : ((⌊(-y + 1/2 : ℚ)⌋ : ℤ) : ℚ) ≤ ((⌊(-x + 1/2 : ℚ)⌋ : ℤ) : ℚ) := by
      exact_mod_cast this
    linarith

/-! ### Claim theorems -/

set_option maxRecDepth 100000 in
/-- C4: `getAddPosition` called with token0Amount = 2,000,000 at 6 decimals,
token1Amount = 8,000,000 at 6 decimals and zero reserves and total supply
uses the rescaled desired amounts 2 and 8 as-is, mints `sqrt(2*8) - 1000`,
rounds to 0 decimal places, and returns exactly -996, with no floor-at-zero
clamp. -/
theorem getAddPosition_first_deposit_neg996 :
    Liquidity.getAddPosition ⟨2000000, 8000000, 6, 6, 0, 0, 0⟩ = BN.num (-996) := by
  with_unfolding_all rfl

/-- C9: for all token decimals `d0`, `d1` in `[0, 18]`, `getPairDecimals`
returns exactly `⌊(d0 + d1) / 2⌋`. -/
theorem getPairDecimals_floor_avg (d0 d1 : ℕ) (h0 : d0 ≤ 18) (h1 : d1 ≤ 18) :
    Liquidity.getPairDecimals d0 d1 = BN.num (((d0 + d1) / 2 : ℕ) : ℚ) := by
  unfold Liquidity.getPairDecimals
  rw [BN.add_num, BN.div_num _ _ (by norm_num)]
  show BN.num ((⌊((d0 : ℚ) + d1) / 2⌋ : ℤ) : ℚ) = _
  congr 1
  have e1 : ((d0 : ℚ) + d1) / 2 = ((d0 + d1 : ℕ) : ℚ) / ((2 : ℕ) : ℚ) := by
    push_cast; ring
  rw [e1, Rat.floor_natCast_div_natCast]
  norm_cast

/-- Witness for C9 at `d0 = 6`, `d1 = 8`. -/
theorem getPairDecimals_floor_avg_witness :
    6 ≤ 18 ∧ 8 ≤ 18 ∧ Liquidity.getPairDecimals 6 8 = BN.num (((6 + 8) / 2 : ℕ) : ℚ) :=
  ⟨by decide, by decide, getPairDecimals_floor_avg 6 8 (by decide) (by decide)⟩

/-- C6: `getPriceImpact` returns exactly 0 whenever any one of its four
inputs is zero or NaN, whatever the remaining inputs are. -/
theorem getPriceImpact_zero_guard (aIn aOut pIn pOut : BN)
    (h : aIn.isZero = true ∨ aIn.isNaN = true ∨ aOut.isZero = true ∨ aOut.isNaN = true
      ∨ pIn.isZero = true ∨ pIn.isNaN = true ∨ pOut.isZero = true ∨ pOut.isNaN = true) :
    Swap.getPriceImpact aIn aOut pIn pOut = BN.num 0 := by
  unfold Swap.getPriceImpact
  rcases h with h | h | h | h | h | h | h | h <;> simp [h]

/-- Witness for C6 at a NaN `amountIn`. -/
theorem getPriceImpact_zero_guard_witness :
    BN.isNaN BN.nan = true ∧
      Swap.getPriceImpact BN.nan (BN.num 1) (BN.num 1) (BN.num 1) = BN.num 0 :=
  ⟨rfl, getPriceImpact_zero_guard BN.nan (BN.num 1) (BN.num 1) (BN.num 1)
    (Or.inr (Or.inl rfl))⟩

/-- C8: `getAddPercentage` returns 1 whenever `totalSupply` is zero, and
otherwise returns `lp / (lp + totalSupply)` where `lp` is `getAddPosition`
applied to the very same parameters. -/
theorem getAddPercentage_spec (p : Liquidity.AddParams) :
    Liquidity.getAddPercentage p =
      if p.totalSupply = 0 then BN.num 1
      else BN.div (Liquidity.getAddPosition p)
        (BN.add (Liquidity.getAddPosition p) (BN.num p.totalSupply)) := by
  unfold Liquidity.getAddPercentage
  by_cases h : p.totalSupply = 0 <;> simp [BN.isZero, h]

/-- C10: an explicit fee of 0 is replaced by the default fee 0.003 (the
JavaScript `||` fallback treats 0 as falsy), so `getAmountOut` with fee 0
computes exactly what it computes with fee 0.003. -/
theorem getAmountOut_zero_fee_default (amountIn : ℚ) (decimalsIn decimalsOut : ℕ)
    (reserveIn reserveOut : ℚ) :
    Swap.getAmountOut amountIn decimalsIn decimalsOut reserveIn reserveOut (some 0) =
      Swap.getAmountOut amountIn decimalsIn decimalsOut reserveIn reserveOut
        (some Swap.DEFAULT_FEE) := by
  unfold Swap.getAmountOut
  norm_num [Swap.feeOrDefault, Swap.DEFAULT_FEE]

/-! ### Evaluation of `getAmountOut` on the non-degenerate path -/

theorem getAmountOut_eval (a : ℚ) (dIn dOut : ℕ) (rIn rOut : ℚ) (fee : Option ℚ)
    (ha : a ≠ 0)
    (hd : rIn + a / 10 ^ dIn * (1 - Swap.feeOrDefault fee) ≠ 0) :
    Swap.getAmountOut a dIn dOut rIn rOut fee =
      BN.num (dpHalfUp (a / 10 ^ dIn * (1 - Swap.feeOrDefault fee) * rOut /
        (rIn + a / 10 ^ dIn * (1 - Swap.feeOrDefault fee)) * 10 ^ dOut)) := by
  have h10 : (10 : ℚ) ^ dIn ≠ 0 := by positivity
  have hz : ¬ (a / 10 ^ dIn = 0) := by
    rw [div_eq_zero_iff]
    push_neg
    exact ⟨ha, h10⟩
  unfold Swap.getAmountOut removeDecimals exponential applyDecimals
  simp only [BN.div_num _ _ h10, BN.isZero_num, BN.sub_num, BN.mul_num, BN.add_num,
    BN.dp0_num, decide_eq_true_eq, hz, if_false,
    BN.div_num _ _ hd]

theorem amm_quotient_lt (A rIn rOut : ℚ) (hA : 0 ≤ A) (hrIn : 0 < rIn)
    (hrOut : 0 < rOut) : A * rOut / (rIn + A) < rOut := by
  have hden : 0 < rIn + A := by linarith
  rw [div_lt_iff hden]
  nlinarith

theorem amm_quotient_mono (A B rIn rOut : ℚ) (hA : 0 ≤ A) (hAB : A ≤ B)
    (hrIn : 0 < rIn) (hrOut : 0 ≤ rOut) :
    A * rOut / (rIn + A) ≤ B * rOut / (rIn + B) := by
  have h1 : 0 < rIn + A := by linarith
  have h2 : 0 < rIn + B := by linarith
  rw [div_le_div_iff h1 h2]
  nlinarith [mul_nonneg (mul_nonneg (sub_nonneg.mpr hAB) hrOut) hrIn.le]

/-- C2 (counterexample): with amountIn = 1 > 0, positive reserves
reserveIn = reserveOut = 1, decimalsOut = 6 and fee 1/2, `getAmountOut`
returns 333333, which is not strictly less than reserveOut = 1: the returned
raw amount is the quotient rescaled by `10^decimalsOut`, so the claimed
bound fails. -/
theorem getAmountOut_not_lt_reserveOut :
    (0 : ℚ) < 1 ∧ Swap.getAmountOut 1 0 6 1 1 (some (1/2)) = BN.num 333333 ∧
      ¬ ((333333 : ℚ) < 1) := by
  refine ⟨by norm_num, ?_, by norm_num⟩
  with_unfolding_all rfl

/-- C2 (amended): for every positive `amountIn`, positive reserves, and an
effective fee in `[0, 1]`, the constant-product quotient computed by
`getAmountOut` is strictly less than `reserveOut`, and the value actually
returned — that quotient rescaled by `10^decimalsOut` and rounded half-up —
is strictly less than `reserveOut * 10^decimalsOut + 1/2`. -/
theorem getAmountOut_lt_scaled_reserveOut (a : ℚ) (dIn dOut : ℕ) (rIn rOut : ℚ)
    (fee : Option ℚ) (ha : 0 < a) (hrIn : 0 < rIn) (hrOut : 0 < rOut)
    (hf0 : 0 ≤ Swap.feeOrDefault fee) (hf1 : Swap.feeOrDefault fee ≤ 1) :
    a / 10 ^ dIn * (1 - Swap.feeOrDefault fee) * rOut /
        (rIn + a / 10 ^ dIn * (1 - Swap.feeOrDefault fee)) < rOut ∧
      (Swap.getAmountOut a dIn dOut rIn rOut fee).toQ < rOut * 10 ^ dOut + 1/2 := by
  have hx : 0 < a / 10 ^ dIn := by positivity
  have hA : 0 ≤ a / 10 ^ dIn * (1 - Swap.feeOrDefault fee) :=
    mul_nonneg hx.le (by linarith)
  have hden : 0 < rIn + a / 10 ^ dIn * (1 - Swap.feeOrDefault fee) := by linarith
  have hq := amm_quotient_lt (a / 10 ^ dIn * (1 - Swap.feeOrDefault fee)) rIn rOut
    hA hrIn hrOut
  refine ⟨hq, ?_⟩
  rw [getAmountOut_eval a dIn dOut rIn rOut fee (ne_of_gt ha) (ne_of_gt hden),
    BN.toQ_num]
  have h1 := dpHalfUp_le (a / 10 ^ dIn * (1 - Swap.feeOrDefault fee) * rOut /
    (rIn + a / 10 ^ dIn * (1 - Swap.feeOrDefault fee)) * 10 ^ dOut)
  have h2 : a / 10 ^ dIn * (1 - Swap.feeOrDefault fee) * rOut /
      (rIn + a / 10 ^ dIn * (1 - Swap.feeOrDefault fee)) * 10 ^ dOut <
      rOut * 10 ^ dOut :=
    mul_lt_mul_of_pos_right hq (by positivity)
  linarith

/-- Witness for the amended C2 at amountIn = 100, reserves 1000/1000, zero
decimals and the default fee. -/
theorem getAmountOut_lt_scaled_reserveOut_witness :
    (0 : ℚ) < 100 ∧ (0 : ℚ) < 1000 ∧ 0 ≤ Swap.feeOrDefault none ∧
      Swap.feeOrDefault none ≤ 1 ∧
      (100 : ℚ) / 10 ^ 0 * (1 - Swap.feeOrDefault none) * 1000 /
          (1000 + 100 / 10 ^ 0 * (1 - Swap.feeOrDefault none)) < 1000 ∧
      (Swap.getAmountOut 100 0 0 1000 1000 none).toQ < 1000 * 10 ^ (0 : ℕ) + 1/2 := by
  have h := getAmountOut_lt_scaled_reserveOut 100 0 0 1000 1000 none (by norm_num)
    (by norm_num) (by norm_num)
    (by norm_num [Swap.feeOrDefault, Swap.DEFAULT_FEE])
    (by norm_num [Swap.feeOrDefault, Swap.DEFAULT_FEE])
  exact ⟨by norm_num, by norm_num,
    by norm_num [Swap.feeOrDefault, Swap.DEFAULT_FEE],
    by norm_num [Swap.feeOrDefault, Swap.DEFAULT_FEE], h.1, h.2⟩

/-- C3 (counterexample): with fixed positive reserves 1000/1000, the default
fee 0.003 (which lies in [0,1)), decimalsIn = 6 and decimalsOut = 0, the raw
amounts 1 < 2 both produce output 0: rounding the output to an integer raw
amount destroys strict monotonicity. -/
theorem getAmountOut_not_strictMono :
    (1 : ℚ) < 2 ∧ (0 : ℚ) < 1000 ∧ 0 ≤ Swap.DEFAULT_FEE ∧ Swap.DEFAULT_FEE < 1 ∧
      Swap.getAmountOut 1 6 0 1000 1000 none = BN.num 0 ∧
      Swap.getAmountOut 2 6 0 1000 1000 none = BN.num 0 := by
  refine ⟨by norm_num, by norm_num, by norm_num [Swap.DEFAULT_FEE],
    by norm_num [Swap.DEFAULT_FEE], ?_, ?_⟩
  · with_unfolding_all rfl
  · with_unfolding_all rfl

/-- C3 (amended): for fixed positive reserves, fixed decimals and an
effective fee in [0,1), `getAmountOut` is monotone (non-decreasing, not
strictly increasing) in the raw input amount. -/
theorem getAmountOut_mono (dIn dOut : ℕ) (rIn rOut : ℚ) (fee : Option ℚ)
    (a b : ℚ) (hrIn : 0 < rIn) (hrOut : 0 < rOut)
    (hf0 : 0 ≤ Swap.feeOrDefault fee) (hf1 : Swap.feeOrDefault fee < 1)
    (ha : 0 ≤ a) (hab : a ≤ b) :
    (Swap.getAmountOut a dIn dOut rIn rOut fee).toQ ≤
      (Swap.getAmountOut b dIn dOut rIn rOut fee).toQ := by
  have hfle : (1 : ℚ) - Swap.feeOrDefault fee ≤ 1 := by linarith
  have hfpos : (0 : ℚ) < 1 - Swap.feeOrDefault fee := by linarith
  have key : ∀ c : ℚ, 0 < c →
      (Swap.getAmountOut c dIn dOut rIn rOut fee).toQ =
        dpHalfUp (c / 10 ^ dIn * (1 - Swap.feeOrDefault fee) * rOut /
          (rIn + c / 10 ^ dIn * (1 - Swap.feeOrDefault fee)) * 10 ^ dOut) := by
    intro c hc
    have hA : 0 ≤ c / 10 ^ dIn * (1 - Swap.feeOrDefault fee) := by positivity
    have hden : 0 < rIn + c / 10 ^ dIn * (1 - Swap.feeOrDefault fee) := by linarith
    rw [getAmountOut_eval c dIn dOut rIn rOut fee (ne_of_gt hc) (ne_of_gt hden),
      BN.toQ_num]
  have eval_nonneg : ∀ c : ℚ, 0 < c →
      0 ≤ (Swap.getAmountOut c dIn dOut rIn rOut fee).toQ := by
    intro c hc
    rw [key c hc]
    have hA : 0 ≤ c / 10 ^ dIn * (1 - Swap.feeOrDefault fee) := by positivity
    have hden : 0 < rIn + c / 10 ^ dIn * (1 - Swap.feeOrDefault fee) := by linarith
    exact dpHalfUp_nonneg (by positivity)
  have zeroeval : ∀ c : ℚ, c = 0 →
      (Swap.getAmountOut c dIn dOut rIn rOut fee).toQ = 0 := by
    intro c hc
    subst hc
    have h10 : (10 : ℚ) ^ dIn ≠ 0 := by positivity
    unfold Swap.getAmountOut removeDecimals exponential
    simp [BN.div_num _ _ h10, BN.isZero_num, BN.toQ_num]
  rcases eq_or_lt_of_le ha with ha0 | hapos
  · rw [zeroeval a ha0.symm]
    rcases eq_or_lt_of_le (ha0.le.trans hab) with hb0 | hbpos
    · rw [zeroeval b hb0.symm]
    · exact eval_nonneg b hbpos
  · have hbpos : 0 < b := lt_of_lt_of_le hapos hab
    rw [key a hapos, key b hbpos]
    apply dpHalfUp_mono
    apply mul_le_mul_of_nonneg_right _ (by positivity)
    apply amm_quotient_mono _ _ _ _ (by positivity) _ hrIn hrOut.le
    have hdiv : a / 10 ^ dIn ≤ b / 10 ^ dIn := by gcongr
    exact mul_le_mul_of_nonneg_right hdiv hfpos.le

/-- Witness for the amended C3 at raw amounts 100 ≤ 200, reserves 1000/1000,
zero decimals and the default fee. -/
theorem getAmountOut_mono_witness :
    (0 : ℚ) < 1000 ∧ 0 ≤ Swap.feeOrDefault none ∧ Swap.feeOrDefault none < 1 ∧
      (0 : ℚ) ≤ 100 ∧ (100 : ℚ) ≤ 200 ∧
      (Swap.getAmountOut 100 0 0 1000 1000 none).toQ ≤
        (Swap.getAmountOut 200 0 0 1000 1000 none).toQ :=
  ⟨by norm_num, by norm_num [Swap.feeOrDefault, Swap.DEFAULT_FEE],
    by norm_num [Swap.feeOrDefault, Swap.DEFAULT_FEE], by norm_num, by norm_num,
    getAmountOut_mono 0 0 1000 1000 none 100 200 (by norm_num) (by norm_num)
      (by norm_num [Swap.feeOrDefault, Swap.DEFAULT_FEE])
      (by norm_num [Swap.feeOrDefault, Swap.DEFAULT_FEE]) (by norm_num) (by norm_num)⟩

/-! ### Token balances (C1) -/

theorem getTokenBalances_token0_toQ (r0 r1 ts lp : ℚ) (hts : ts ≠ 0) :
    ((Liquidity.getTokenBalances r0 r1 ts lp).1).toQ = dpHalfUp (r0 * (lp / ts)) := by
  unfold Liquidity.getTokenBalances
  simp [BN.div_num _ _ hts, BN.mul_num, BN.dp0_num, BN.toQ_num]

theorem sumToken0_bound (r0 r1 ts : ℚ) (hts : ts ≠ 0) (lps : List ℚ) :
    Liquidity.sumToken0 r0 r1 ts lps ≤ r0 * lps.sum / ts + lps.length / 2 := by
  induction lps with
  | nil => simp [Liquidity.sumToken0]
  | cons hd tl ih =>
    have h1 : ((Liquidity.getTokenBalances r0 r1 ts hd).1).toQ =
        dpHalfUp (r0 * (hd / ts)) := getTokenBalances_token0_toQ r0 r1 ts hd hts
    have h2 : dpHalfUp (r0 * (hd / ts)) ≤ r0 * (hd / ts) + 1/2 := dpHalfUp_le _
    have hsum : Liquidity.sumToken0 r0 r1 ts (hd :: tl) =
        ((Liquidity.getTokenBalances r0 r1 ts hd).1).toQ +
          Liquidity.sumToken0 r0 r1 ts tl := by
      simp [Liquidity.sumToken0]
    rw [hsum, h1]
    have hexp : r0 * (hd :: tl).sum / ts = r0 * (hd / ts) + r0 * tl.sum / ts := by
      rw [List.sum_cons]
      field_simp
      ring
    rw [hexp]
    have hlen : (((hd :: tl).length : ℚ)) = (tl.length : ℚ) + 1 := by
      rw [List.length_cons]
      push_cast
      ring
    rw [hlen]
    linarith

/-- C1 (counterexample): with reserve0 = 1, totalSupply = 2 and the two LP
holders [1, 1] (non-negative, summing to totalSupply), `getTokenBalances`
rounds each holder's token0 balance of 0.5 up to 1, so the redeemed total is
2, exceeding reserve0 = 1: `.dp(0)` rounds half-up, not down. -/
theorem getTokenBalances_sum_exceeds_reserve0 :
    (0 : ℚ) < 2 ∧ (0 : ℚ) ≤ 1 ∧ ((1 : ℚ) + 1) ≤ 2 ∧
      Liquidity.sumToken0 1 1 2 [1, 1] = 2 ∧
      ¬ (Liquidity.sumToken0 1 1 2 [1, 1] ≤ 1) := by
  have he : Liquidity.sumToken0 1 1 2 [1, 1] = 2 := by with_unfolding_all rfl
  refine ⟨by norm_num, by norm_num, by norm_num, he, ?_⟩
  rw [he]
  norm_num

/-- C1 (amended): `getTokenBalances` rounds each redeemable balance to 0
decimal places with the library's default half-up rounding (not floor);
consequently, for a pair state with positive totalSupply, non-negative
reserve0 and any finite list of non-negative lpBalances summing to at most
totalSupply, the total redeemed token0 amount can exceed reserve0 only by
the accumulated rounding, i.e. it is at most reserve0 + n/2 for n holders. -/
theorem sumToken0_le_reserve0_add_half_count (r0 r1 ts : ℚ) (lps : List ℚ)
    (hts : 0 < ts) (hr0 : 0 ≤ r0) (hpos : ∀ lp ∈ lps, 0 ≤ lp)
    (hsum : lps.sum ≤ ts) :
    Liquidity.sumToken0 r0 r1 ts lps ≤ r0 + lps.length / 2 := by
  have h1 := sumToken0_bound r0 r1 ts (ne_of_gt hts) lps
  have h2 : r0 * lps.sum / ts ≤ r0 := by
    rw [div_le_iff hts]
    nlinarith
  linarith

/-- Witness for the amended C1 with reserve0 = 10, totalSupply = 4 and LP
balances [1, 2]. -/
theorem sumToken0_le_reserve0_add_half_count_witness :
    (0 : ℚ) < 4 ∧ (0 : ℚ) ≤ 10 ∧ (∀ lp ∈ [(1 : ℚ), 2], 0 ≤ lp) ∧
      ([(1 : ℚ), 2].sum ≤ 4) ∧
      Liquidity.sumToken0 10 20 4 [1, 2] ≤ 10 + ([(1 : ℚ), 2].length : ℚ) / 2 :=
  ⟨by norm_num, by norm_num, by norm_num, by norm_num,
    sumToken0_le_reserve0_add_half_count 10 20 4 [1, 2] (by norm_num) (by norm_num)
      (by norm_num) (by norm_num)⟩

/-! ### Credited deposit amounts (C5) -/

/-- C5 (counterexample): with reserve0 = 0 and reserve1 = 1 (so at least one
reserve is non-zero) and desired amounts 1 and 1, the claimed formula (read
with the convention that a quotient with zero divisor is 0, so that
`amount1Optimal = 1 * 1 / 0 = 0 ≤ 1` selects the first branch) predicts the
credited amounts (1, 0); the code instead compares against the Infinity
produced by `1 * 1 / 0`, the comparison fails, and the credited amounts are
(0, 1). -/
theorem addAmounts_zero_reserve0_cex :
    ¬ ((0 : ℚ) = 0 ∧ (1 : ℚ) = 0) ∧ ((1 : ℚ) * 1 / 0 ≤ 1) ∧
      Liquidity.addAmounts (BN.num 1) (BN.num 1) (BN.num 0) (BN.num 1) =
        (BN.num 0, BN.num 1) ∧
      BN.num (0 : ℚ) ≠ BN.num (1 : ℚ) := by
  refine ⟨by norm_num, by norm_num, ?_, by simp⟩
  with_unfolding_all rfl

/-- C5 (amended): in `getAddPosition`'s credited-amount computation with
both reserves non-zero, if `amount1Desired ≥ amount0Desired * reserve1 /
reserve0` the credited amounts are `(amount0Desired, amount0Desired *
reserve1 / reserve0)`, and otherwise they are `(amount1Desired * reserve0 /
reserve1, amount1Desired)`: excess of either token beyond the reserve ratio
is never credited. -/
theorem addAmounts_ratio (a0 a1 r0 r1 : ℚ) (h0 : r0 ≠ 0) (h1 : r1 ≠ 0) :
    Liquidity.addAmounts (BN.num a0) (BN.num a1) (BN.num r0) (BN.num r1) =
      if a0 * r1 / r0 ≤ a1 then (BN.num a0, BN.num (a0 * r1 / r0))
      else (BN.num (a1 * r0 / r1), BN.num a1) := by
  unfold Liquidity.addAmounts
  simp only [BN.isZero_num, BN.mul_num, BN.div_num _ _ h0, BN.div_num _ _ h1,
    BN.ge_num, h0, decide_False, Bool.false_and, Bool.false_eq_true, if_false]
  by_cases hle : a0 * r1 / r0 ≤ a1
  · simp [hle]
  · simp [hle]

/-- Witness for the amended C5 at the spec's proportional-deposit scenario:
reserves 100/200, desired amounts 10 and 20, credited amounts (10, 20). -/
theorem addAmounts_ratio_witness :
    (100 : ℚ) ≠ 0 ∧ (200 : ℚ) ≠ 0 ∧
      Liquidity.addAmounts (BN.num 10) (BN.num 20) (BN.num 100) (BN.num 200) =
        if (10 : ℚ) * 200 / 100 ≤ 20 then (BN.num 10, BN.num (10 * 200 / 100))
        else (BN.num (20 * 100 / 200), BN.num 20) :=
  ⟨by norm_num, by norm_num, addAmounts_ratio 10 20 100 200 (by norm_num) (by norm_num)⟩

/-! ### Price impact on non-degenerate inputs (C7) -/

/-- C7 (counterexample): at the non-zero numeric inputs amountIn = -1,
amountOut = 1, priceIn = 1, priceOut = 1, `getPriceImpact` returns -200,
which is strictly negative although the quoted output value 1*1 is not
strictly less than the quoted input value (-1)*1: the claimed sign
equivalence fails when the input value is negative. -/
theorem getPriceImpact_sign_cex :
    ((-1 : ℚ) ≠ 0 ∧ (1 : ℚ) ≠ 0) ∧
      Swap.getPriceImpact (BN.num (-1)) (BN.num 1) (BN.num 1) (BN.num 1) =
        BN.num (-200) ∧
      ((-200 : ℚ) < 0) ∧ ¬ ((1 : ℚ) * 1 < (-1) * 1) := by
  refine ⟨⟨by norm_num, by norm_num⟩, ?_, by norm_num, by norm_num⟩
  with_unfolding_all rfl

/-- C7 (amended): for all non-zero numeric inputs, `getPriceImpact` returns
exactly `-(1 - (amountOut*priceOut)/(amountIn*priceIn)) * 100`; whenever the
quoted input value `amountIn*priceIn` is positive, that result is strictly
negative exactly when `amountOut*priceOut` is strictly less than
`amountIn*priceIn`. -/
theorem getPriceImpact_formula (a b p q : ℚ) (ha : a ≠ 0) (hb : b ≠ 0)
    (hp : p ≠ 0) (hq : q ≠ 0) :
    Swap.getPriceImpact (BN.num a) (BN.num b) (BN.num p) (BN.num q) =
      BN.num (-(1 - b * q / (a * p)) * 100) ∧
      (0 < a * p → (-(1 - b * q / (a * p)) * 100 < 0 ↔ b * q < a * p)) := by
  have hap : a * p ≠ 0 := mul_ne_zero ha hp
  constructor
  · unfold Swap.getPriceImpact Price.getByAmount
    simp only [BN.isZero_num, BN.isNaN, BN.mul_num, BN.sub_num,
      BN.div_num _ _ hap, BN.neg_num, ha, hb, hp, hq, decide_False,
      Bool.or_false, Bool.false_or, Bool.false_eq_true, if_false]
    congr 1
    ring
  · intro hpos
    have h1 : (-(1 - b * q / (a * p)) * 100 < 0) ↔ b * q / (a * p) < 1 := by
      constructor <;> intro h <;> linarith
    rw [h1, div_lt_one hpos]

/-- Witness for the amended C7 at amountIn = 1, amountOut = 1, priceIn = 2,
priceOut = 1. -/
theorem getPriceImpact_formula_witness :
    ((1 : ℚ) ≠ 0 ∧ (2 : ℚ) ≠ 0) ∧
      (Swap.getPriceImpact (BN.num 1) (BN.num 1) (BN.num 2) (BN.num 1) =
          BN.num (-(1 - 1 * 1 / (1 * 2)) * 100) ∧
        (0 < (1 : ℚ) * 2 →
          (-(1 - 1 * 1 / ((1 : ℚ) * 2)) * 100 < 0 ↔ (1 : ℚ) * 1 < 1 * 2))) :=
  ⟨⟨by norm_num, by norm_num⟩,
    getPriceImpact_formula 1 1 2 1 (by norm_num) (by norm_num) (by norm_num)
      (by norm_num)⟩
